import Mathlib

/-!
Verification development for the fitparse format-conversion core
(src/csv.c and src/gpx.c): a shallow embedding of the CSV and GPX
readers and writers over the shared activity data model, together with
theorems settling the specification claims.

Modelling conventions:
* C doubles are modelled as rationals; the distinguished "unset"
  sentinel of a field becomes an Option (none = unset).
* The external collaborators that are not part of src/ (activity.h,
  util.h, vector.h, the mxml SAX library, parse_field, parse_timestamp,
  format_timestamp, printf-style numeric rendering) are modelled from
  the spec, with doc comments marking each such definition.
* Machine integers: vector elements are uint32_t in the source; casts
  and the one place where uint32 arithmetic matters (breaks[j]-1 in
  fix_laps) are modelled with explicit mod 2^32 arithmetic.
-/

namespace Fitparse

/-- The closed enumeration of the 12 recognized data fields
(activity.h, mirrored by the spec section 3).  The source's extra
sentinel value DataFieldCount is modelled by using Option DataField
where the sentinel can occur. -/
inductive DataField
  | Timestamp
  | Latitude
  | Longitude
  | Altitude
  | Distance
  | Speed
  | Power
  | Grade
  | HeartRate
  | Cadence
  | LRBalance
  | Temperature
deriving DecidableEq, Fintype, Repr

open DataField

/-- Number of recognized data fields (DataFieldCount in the source). -/
def DataFieldCount : Nat := 12

/-- The canonical fields in canonical order (the order of the
enumeration in activity.h, used by the CSV writer). -/
def allFields : List DataField :=
  [Timestamp, Latitude, Longitude, Altitude, Distance, Speed,
   Power, Grade, HeartRate, Cadence, LRBalance, Temperature]

/-- Modelled from the spec: a DataPoint (activity.h is not in src/) is
a fixed-size record indexed by DataField of doubles each carrying a
set/unset marker; we use Option. -/
structure DataPoint where
  data : DataField → Option ℚ

/-- Modelled from the spec: unset_data_point (activity.h) resets every
field of a point to the unset sentinel. -/
def unset_data_point : DataPoint := ⟨fun _ => none⟩

/-- Decimal reading of a character list, used by the modelled external
parsers; non-digit characters contribute their offset from the digit
zero, which is irrelevant to every claim (all concrete inputs are
digit strings). -/
def digitsVal (cs : List Char) : Nat :=
  cs.foldl (fun acc c => acc * 10 + (c.toNat - 48)) 0

/-- Modelled from the spec: the per-field textual parser parse_field is
an external collaborator; which values flow where is all that matters
for the claims, so cell text is parsed as a decimal natural number. -/
def parse_double (s : String) : ℚ := (digitsVal s.data : ℚ)

/-- Modelled from the spec: parse_field(field, &point, text) stores the
parsed value of the text into the given field of the point. -/
def parse_field (f : DataField) (dp : DataPoint) (s : String) : DataPoint :=
  ⟨Function.update dp.data f (some (parse_double s))⟩

/-- Modelled from the spec: parse_timestamp (util.h) parses the textual
content of a time element into a numeric timestamp. -/
def parse_timestamp (s : String) : Nat := digitsVal s.data

/-- Cast to uint32_t as performed on values appended to vectors. -/
def toU32 (n : Nat) : Nat := n % 4294967296

/-- Cast of a double to uint32_t ((uint32_t)x in the source); negative
values are undefined behaviour in C and are clamped here. -/
def ratToU32 (q : ℚ) : Nat := q.floor.toNat % 4294967296

/-- Source format tag of an activity. -/
inductive FileFormat
  | unknown
  | csv
  | gpx
deriving DecidableEq, Repr

/-- Modelled from the spec: the Activity aggregate (activity.h is not
in src/): ordered data points, break and lap index sequences (uint32
vectors), the per-field last-set-value record used by the writers as
the "any value ever seen" indicator, the source format tag, and the
start time. -/
structure Activity where
  data_points : List DataPoint := []
  breaks : List Nat := []
  laps : List Nat := []
  last : DataField → Option ℚ := fun _ => none
  format : FileFormat := .unknown
  start_time : ℚ := 0

/-- num_points is the length of data_points. -/
def Activity.num_points (a : Activity) : Nat := a.data_points.length

/-- Modelled from the spec: activity_new allocates an empty activity. -/
def activity_new : Activity := {}

/-- Modelled from the spec: activity_add_point appends a copy of the
point, records the last set value of every field that is set in it, and
notes the first point's timestamp as the start time.  (The source can
fail on allocation; allocation failure is not modelled.) -/
def activity_add_point (a : Activity) (dp : DataPoint) : Activity :=
  { a with
    data_points := a.data_points ++ [dp]
    last := fun f => match dp.data f with
      | some v => some v
      | none => a.last f
    start_time := if a.data_points.isEmpty then (dp.data Timestamp).getD a.start_time
      else a.start_time }

/-- The invariant tying Activity.last to the points (spec section 3:
last is the "any non-unset value ever seen" indicator): a field has a
last value exactly when some point has it set. -/
def lastConsistent (a : Activity) : Prop :=
  ∀ f : DataField, (a.last f).isSome = a.data_points.any (fun dp => (dp.data f).isSome)

instance (a : Activity) : Decidable (lastConsistent a) := by
  unfold lastConsistent
  infer_instance

/-! ## Field-name resolver (src/csv.c, name_to_field) -/

/-- C isspace over the ASCII whitespace characters. -/
def cIsSpace (c : Char) : Bool :=
  c = ' ' ∨ c = '\t' ∨ c = '\n' ∨ c = '\x0b' ∨ c = '\x0c' ∨ c = '\r'

/-- Modelled from the spec: downcase (util.h) lowercases a string in
place. -/
def downcase (s : String) : String := ⟨s.data.map Char.toLower⟩

/-- Leading-whitespace skip performed at the top of name_to_field. -/
def skipSpace (s : String) : String := ⟨s.data.dropWhile cIsSpace⟩

/-- name_to_field (src/csv.c lines 50-89): skip leading whitespace,
lowercase, then match the alias chain in source order.  The source's
DataFieldCount sentinel return is modelled as none. -/
def name_to_field (nm : String) : Option DataField :=
  let s := downcase (skipSpace nm)
  if s = "timestamp" ∨ s = "time" then some Timestamp
  else if s = "latitude" ∨ s = "lat" then some Latitude
  else if s = "longitude" ∨ s = "lon" ∨ s = "long" then some Longitude
  else if s = "altitude" ∨ s = "elevation" ∨ s = "alt" ∨ s = "ele" then some Altitude
  else if s = "distance" ∨ s = "dist" then some Distance
  else if s = "speed" ∨ s = "spd" then some Speed
  else if s = "power" ∨ s = "pow" ∨ s = "watts" then some Power
  else if s = "slope" ∨ s = "grade" ∨ s = "gradient" then some Grade
  else if s = "heart_rate" ∨ s = "hr" then some HeartRate
  else if s = "cadence" ∨ s = "cad" then some Cadence
  else if s = "balance" ∨ s = "bal" ∨ s = "lr_balance" then some LRBalance
  else if s = "temperature" ∨ s = "atemp" ∨ s = "temp" then some Temperature
  else none

/-- The alias table of spec section 4.1. -/
def aliasTable : List (String × DataField) :=
  [("timestamp", Timestamp), ("time", Timestamp),
   ("latitude", Latitude), ("lat", Latitude),
   ("longitude", Longitude), ("lon", Longitude), ("long", Longitude),
   ("altitude", Altitude), ("elevation", Altitude), ("alt", Altitude), ("ele", Altitude),
   ("distance", Distance), ("dist", Distance),
   ("speed", Speed), ("spd", Speed),
   ("power", Power), ("pow", Power), ("watts", Power),
   ("slope", Grade), ("grade", Grade), ("gradient", Grade),
   ("heart_rate", HeartRate), ("hr", HeartRate),
   ("cadence", Cadence), ("cad", Cadence),
   ("balance", LRBalance), ("bal", LRBalance), ("lr_balance", LRBalance),
   ("temperature", Temperature), ("atemp", Temperature), ("temp", Temperature)]

/-- Uppercasing, used to state the case-insensitivity part of the
alias-closure property. -/
def upstr (s : String) : String := ⟨s.data.map Char.toUpper⟩

/-- C9: for every (alias, field) pair of the section 4.1 table,
name_to_field resolves the alias, its uppercase form, and the alias
with two leading blanks to the field, and resolves "nope" to the
unknown sentinel. -/
theorem c9_alias_closure :
    (aliasTable.all (fun p =>
      decide (name_to_field p.1 = some p.2) &&
      decide (name_to_field (upstr p.1) = some p.2) &&
      decide (name_to_field ("  " ++ p.1) = some p.2))) = true ∧
    name_to_field "nope" = none := by
  constructor
  · decide
  · decide

/-! ## CSV writer (src/csv.c, write_field and csv_write_options) -/

/-- Canonical field-name table DATA_FIELDS (src/csv.c lines 31-34). -/
def DATA_FIELDS : DataField → String
  | Timestamp => "timestamp"
  | Latitude => "latitude"
  | Longitude => "longitude"
  | Altitude => "altitude"
  | Distance => "distance"
  | Speed => "speed"
  | Power => "power"
  | Grade => "grade"
  | HeartRate => "heart_rate"
  | Cadence => "cadence"
  | LRBalance => "lr_balance"
  | Temperature => "temperature"

/-- The printf format string passed to write_field for each field in
the twelve calls of csv_write_options (src/csv.c lines 299-310). -/
def fieldFmt : DataField → String
  | Timestamp => "%.0f"
  | Latitude => "%.7f"
  | Longitude => "%.7f"
  | Altitude => "%.3f"
  | Distance => "%.2f"
  | Speed => "%.2f"
  | Power => "%.0f"
  | Grade => "%.2f"
  | HeartRate => "%.0f"
  | Cadence => "%.0f"
  | LRBalance => "%.0f"
  | Temperature => "%.0f"

/-- Exact decimal-free rendering of a rational, used to model numeric
output. -/
def ratRender (q : ℚ) : String :=
  (if q.num < 0 then "-" else "") ++ Nat.repr q.num.natAbs ++
    (if q.den = 1 then "" else "/" ++ Nat.repr q.den)

/-- Modelled from the spec: printf numeric rendering (fprintf(f, format,
d)) is external; the claims depend only on which value is printed, so
the precision of the format is abstracted to an exact rendering. -/
def cFormat (fmt : String) (q : ℚ) : String := ratRender q

/-- Modelled from the spec: format_timestamp (util.h) renders a
timestamp as ISO-8601 text; the claims depend only on which timestamp
is rendered, so an exact injective rendering stands in for it. -/
def format_timestamp (t : ℚ) : String := ratRender t

/-- Options of the CSV writer (csv.h, spec section 4.3). -/
structure CSVOptions where
  remove_unset : Bool
  unset_value : String

/-- A byte stream for the CSV writer: the text written so far and
whether writes succeed.  fprintf on a failed stream writes nothing (its
error return is what csv_write_options ignores). -/
structure CStream where
  out : String
  ok : Bool

/-- fprintf to the modelled stream. -/
def fprintf (st : CStream) (t : String) : CStream :=
  if st.ok then { st with out := st.out ++ t } else st

/-- The keep test !o->remove_unset || a->last[field] used identically
by the header loop (line 286) and by write_field (line 250). -/
def fieldGate (o : CSVOptions) (a : Activity) (fld : DataField) : Bool :=
  !o.remove_unset || (a.last fld).isSome

/-- write_field (src/csv.c lines 247-261): if the field is kept, write
a separating comma unless this is the first kept cell of the line, then
the formatted value or the unset substitute, and clear the first
flag. -/
def write_field (st : CStream) (fmt : String) (i : Nat) (fld : DataField)
    (a : Activity) (o : CSVOptions) (first : Bool) : CStream × Bool :=
  if fieldGate o a fld then
    (match (a.data_points.getD i unset_data_point).data fld with
      | none => fprintf (if first = false then fprintf st "," else st) o.unset_value
      | some q => fprintf (if first = false then fprintf st "," else st) (cFormat fmt q),
     false)
  else (st, first)

/-- The header loop of csv_write_options (src/csv.c lines 285-294),
walking the fields in canonical order. -/
def csvHeaderGo (a : Activity) (o : CSVOptions) :
    List DataField → CStream → Bool → CStream × Bool
  | [], st, first => (st, first)
  | fld :: rest, st, first =>
    if fieldGate o a fld then
      if first then csvHeaderGo a o rest (fprintf st (DATA_FIELDS fld)) false
      else csvHeaderGo a o rest (fprintf st ("," ++ DATA_FIELDS fld)) first
    else csvHeaderGo a o rest st first

/-- The twelve write_field calls for one data row (src/csv.c lines
299-310), in canonical order with the per-field formats. -/
def csvRowGo (a : Activity) (o : CSVOptions) (i : Nat) :
    List DataField → CStream → Bool → CStream × Bool
  | [], st, first => (st, first)
  | fld :: rest, st, first =>
    csvRowGo a o i rest (write_field st (fieldFmt fld) i fld a o first).1
      (write_field st (fieldFmt fld) i fld a o first).2

/-- csv_write_options (src/csv.c lines 278-315): header, newline, one
row per point each followed by a newline; always returns 0. -/
def csv_write_options (st : CStream) (a : Activity) (o : CSVOptions) :
    CStream × Nat :=
  ((List.range a.num_points).foldl
    (fun acc i => fprintf (csvRowGo a o i allFields acc true).1 "\n")
    (fprintf (csvHeaderGo a o allFields st true).1 "\n"), 0)

/-- Comma-separated join, used to state what a line of CSV output
mentions. -/
def joinComma : List String → String
  | [] => ""
  | [x] => x
  | x :: rest => x ++ "," ++ joinComma rest

/-- Concatenation of a list of strings. -/
def strConcat : List String → String
  | [] => ""
  | x :: rest => x ++ strConcat rest

/-- The fields of an activity with a set value anywhere, in canonical
order. -/
def keptSet (a : Activity) : List DataField :=
  allFields.filter (fun fld => (a.last fld).isSome)

/-- The cell text write_field emits for a kept field of a row. -/
def cellText (a : Activity) (o : CSVOptions) (i : Nat) (fld : DataField) : String :=
  match (a.data_points.getD i unset_data_point).data fld with
  | none => o.unset_value
  | some q => cFormat (fieldFmt fld) q

lemma fprintf_ok (st : CStream) (t : String) : (fprintf st t).ok = st.ok := by
  unfold fprintf
  split <;> rfl

lemma fprintf_out (st : CStream) (t : String) (h : st.ok = true) :
    (fprintf st t).out = st.out ++ t := by
  unfold fprintf
  rw [if_pos h]

lemma fprintf_fprintf (st : CStream) (t1 t2 : String) :
    fprintf (fprintf st t1) t2 = fprintf st (t1 ++ t2) := by
  unfold fprintf
  by_cases h : st.ok = true
  · simp [h, String.append_assoc]
  · simp [h]

lemma joinComma_cons (x : String) (xs : List String) :
    joinComma (x :: xs) = x ++ strConcat (xs.map (fun y => "," ++ y)) := by
  induction xs generalizing x with
  | nil => simp [joinComma, strConcat, String.append_empty]
  | cons y ys ih =>
    simp only [joinComma, List.map_cons, strConcat, ih y]
    simp [String.append_assoc]

lemma csvHeaderGo_false (a : Activity) (o : CSVOptions) :
    ∀ (l : List DataField) (st : CStream), st.ok = true →
      (csvHeaderGo a o l st false).1.out =
        st.out ++ strConcat ((l.filter (fieldGate o a)).map
          (fun fld => "," ++ DATA_FIELDS fld)) ∧
      (csvHeaderGo a o l st false).1.ok = true := by
  intro l
  induction l with
  | nil => intro st h; simp [csvHeaderGo, strConcat, String.append_empty, h]
  | cons fld rest ih =>
    intro st h
    by_cases hg : fieldGate o a fld
    · have hok : (fprintf st ("," ++ DATA_FIELDS fld)).ok = true := by
        rw [fprintf_ok]; exact h
      have := ih (fprintf st ("," ++ DATA_FIELDS fld)) hok
      simp only [csvHeaderGo, hg, if_true, Bool.false_eq_true, if_false]
      refine ⟨?_, this.2⟩
      rw [this.1, fprintf_out st _ h]
      simp [hg, strConcat, String.append_assoc]
    · have := ih st h
      simp only [csvHeaderGo, hg, Bool.false_eq_true, if_false]
      refine ⟨?_, this.2⟩
      rw [this.1]
      simp [hg]

lemma csvHeaderGo_true (a : Activity) (o : CSVOptions) :
    ∀ (l : List DataField) (st : CStream), st.ok = true →
      (csvHeaderGo a o l st true).1.out =
        st.out ++ joinComma ((l.filter (fieldGate o a)).map DATA_FIELDS) ∧
      (csvHeaderGo a o l st true).1.ok = true := by
  intro l
  induction l with
  | nil => intro st h; simp [csvHeaderGo, joinComma, String.append_empty, h]
  | cons fld rest ih =>
    intro st h
    by_cases hg : fieldGate o a fld
    · have hok : (fprintf st (DATA_FIELDS fld)).ok = true := by
        rw [fprintf_ok]; exact h
      have hrest := csvHeaderGo_false a o rest (fprintf st (DATA_FIELDS fld)) hok
      simp only [csvHeaderGo, hg, if_true]
      refine ⟨?_, hrest.2⟩
      rw [hrest.1, fprintf_out st _ h]
      simp [hg, joinComma_cons, String.append_assoc, List.map_map]
      rfl
    · have := ih st h
      simp only [csvHeaderGo, hg, Bool.false_eq_true, if_false]
      refine ⟨?_, this.2⟩
      rw [this.1]
      simp [hg]

lemma csvRowGo_false (a : Activity) (o : CSVOptions) (i : Nat) :
    ∀ (l : List DataField) (st : CStream), st.ok = true →
      (csvRowGo a o i l st false).1.out =
        st.out ++ strConcat ((l.filter (fieldGate o a)).map
          (fun fld => "," ++ cellText a o i fld)) ∧
      (csvRowGo a o i l st false).1.ok = true := by
  intro l
  induction l with
  | nil => intro st h; simp [csvRowGo, strConcat, String.append_empty, h]
  | cons fld rest ih =>
    intro st h
    by_cases hg : fieldGate o a fld
    · have hcell :
          (write_field st (fieldFmt fld) i fld a o false) =
            (fprintf st ("," ++ cellText a o i fld), false) := by
        unfold write_field cellText
        rw [if_pos hg]
        cases hd : (a.data_points.getD i unset_data_point).data fld <;>
          simp [hd, fprintf_fprintf]
      have hok : (fprintf st ("," ++ cellText a o i fld)).ok = true := by
        rw [fprintf_ok]; exact h
      have := ih (fprintf st ("," ++ cellText a o i fld)) hok
      simp only [csvRowGo, hcell]
      refine ⟨?_, this.2⟩
      rw [this.1, fprintf_out st _ h]
      simp [hg, strConcat, String.append_assoc]
    · have hcell :
          (write_field st (fieldFmt fld) i fld a o false) = (st, false) := by
        unfold write_field
        rw [if_neg (by simpa using hg)]
      have := ih st h
      simp only [csvRowGo, hcell]
      refine ⟨?_, this.2⟩
      rw [this.1]
      simp [hg]

lemma csvRowGo_true (a : Activity) (o : CSVOptions) (i : Nat) :
    ∀ (l : List DataField) (st : CStream), st.ok = true →
      (csvRowGo a o i l st true).1.out =
        st.out ++ joinComma ((l.filter (fieldGate o a)).map (cellText a o i)) ∧
      (csvRowGo a o i l st true).1.ok = true := by
  intro l
  induction l with
  | nil => intro st h; simp [csvRowGo, joinComma, String.append_empty, h]
  | cons fld rest ih =>
    intro st h
    by_cases hg : fieldGate o a fld
    · have hcell :
          (write_field st (fieldFmt fld) i fld a o true) =
            (fprintf st (cellText a o i fld), false) := by
        unfold write_field cellText
        rw [if_pos hg]
        cases hd : (a.data_points.getD i unset_data_point).data fld <;>
          simp [hd]
      have hok : (fprintf st (cellText a o i fld)).ok = true := by
        rw [fprintf_ok]; exact h
      have hrest := csvRowGo_false a o i rest (fprintf st (cellText a o i fld)) hok
      simp only [csvRowGo, hcell]
      refine ⟨?_, hrest.2⟩
      rw [hrest.1, fprintf_out st _ h]
      simp [hg, joinComma_cons, String.append_assoc, List.map_map]
      rfl
    · have hcell :
          (write_field st (fieldFmt fld) i fld a o true) = (st, true) := by
        unfold write_field
        rw [if_neg (by simpa using hg)]
      have := ih st h
      simp only [csvRowGo, hcell]
      refine ⟨?_, this.2⟩
      rw [this.1]
      simp [hg]

lemma csvRowsFold (a : Activity) (o : CSVOptions) :
    ∀ (idxs : List Nat) (st : CStream), st.ok = true →
      (idxs.foldl (fun acc i => fprintf (csvRowGo a o i allFields acc true).1 "\n") st).out =
        st.out ++ strConcat (idxs.map (fun i =>
          joinComma ((allFields.filter (fieldGate o a)).map (cellText a o i)) ++ "\n")) ∧
      (idxs.foldl (fun acc i => fprintf (csvRowGo a o i allFields acc true).1 "\n") st).ok = true := by
  intro idxs
  induction idxs with
  | nil => intro st h; simp [strConcat, String.append_empty, h]
  | cons i rest ih =>
    intro st h
    have hrow := csvRowGo_true a o i allFields st h
    have hok1 : (fprintf (csvRowGo a o i allFields st true).1 "\n").ok = true := by
      rw [fprintf_ok]; exact hrow.2
    have := ih (fprintf (csvRowGo a o i allFields st true).1 "\n") hok1
    simp only [List.foldl_cons]
    refine ⟨?_, this.2⟩
    rw [this.1, fprintf_out _ _ hrow.2, hrow.1]
    simp [strConcat, String.append_assoc]

/-- C4: with remove_unset, the header line and every data row of
csv_write_options carry exactly the cells of the fields with a set
value somewhere in the activity (a.last is set), the same set for the
header and for each row, in canonical order. -/
theorem c4_remove_unset_symmetry (st : CStream) (a : Activity) (o : CSVOptions)
    (hro : o.remove_unset = true) (hok : st.ok = true) :
    (csv_write_options st a o).1.out =
      st.out ++ joinComma ((keptSet a).map DATA_FIELDS) ++ "\n" ++
        strConcat ((List.range a.num_points).map (fun i =>
          joinComma ((keptSet a).map (cellText a o i)) ++ "\n")) := by
  have hfilter : allFields.filter (fieldGate o a) = keptSet a := by
    unfold keptSet
    apply List.filter_congr
    intro fld _
    simp [fieldGate, hro]
  have hhdr := csvHeaderGo_true a o allFields st hok
  have hok1 : (fprintf (csvHeaderGo a o allFields st true).1 "\n").ok = true := by
    rw [fprintf_ok]; exact hhdr.2
  have hrows := csvRowsFold a o (List.range a.num_points)
    (fprintf (csvHeaderGo a o allFields st true).1 "\n") hok1
  unfold csv_write_options
  rw [hrows.1, fprintf_out _ _ hhdr.2, hhdr.1, hfilter]

/-- C4 witness: a one-point activity with timestamp, latitude and
longitude set, written with remove_unset, yields exactly the three
kept columns in header and row. -/
theorem c4_witness :
    (csv_write_options ⟨"", true⟩
      { data_points := [⟨fun f => if f = Timestamp then some 0 else
          if f = Latitude then some 1 else if f = Longitude then some 2 else none⟩]
        last := fun f => if f = Timestamp then some 0 else
          if f = Latitude then some 1 else if f = Longitude then some 2 else none }
      ⟨true, "x"⟩).1.out =
      "" ++ joinComma ((keptSet
        { data_points := [⟨fun f => if f = Timestamp then some 0 else
            if f = Latitude then some 1 else if f = Longitude then some 2 else none⟩]
          last := fun f => if f = Timestamp then some 0 else
            if f = Latitude then some 1 else if f = Longitude then some 2 else none }).map DATA_FIELDS) ++ "\n" ++
        strConcat ((List.range
          (Activity.num_points
            { data_points := [⟨fun f => if f = Timestamp then some 0 else
                if f = Latitude then some 1 else if f = Longitude then some 2 else none⟩]
              last := fun f => if f = Timestamp then some 0 else
                if f = Latitude then some 1 else if f = Longitude then some 2 else none })).map (fun i =>
          joinComma ((keptSet
            { data_points := [⟨fun f => if f = Timestamp then some 0 else
                if f = Latitude then some 1 else if f = Longitude then some 2 else none⟩]
              last := fun f => if f = Timestamp then some 0 else
                if f = Latitude then some 1 else if f = Longitude then some 2 else none }).map (cellText
            { data_points := [⟨fun f => if f = Timestamp then some 0 else
                if f = Latitude then some 1 else if f = Longitude then some 2 else none⟩]
              last := fun f => if f = Timestamp then some 0 else
                if f = Latitude then some 1 else if f = Longitude then some 2 else none } ⟨true, "x"⟩ i)) ++ "\n")) :=
  c4_remove_unset_symmetry ⟨"", true⟩ _ ⟨true, "x"⟩ rfl rfl

lemma fprintf_notok (st : CStream) (t : String) (h : st.ok = false) :
    fprintf st t = st := by
  unfold fprintf
  rw [if_neg (by simp [h])]

lemma write_field_notok (st : CStream) (fmt : String) (i : Nat) (fld : DataField)
    (a : Activity) (o : CSVOptions) (first : Bool) (h : st.ok = false) :
    (write_field st fmt i fld a o first).1 = st := by
  unfold write_field
  split
  · cases hd : (a.data_points.getD i unset_data_point).data fld <;>
      cases first <;> simp [hd, fprintf_notok, h]
  · rfl

lemma csvHeaderGo_notok (a : Activity) (o : CSVOptions) :
    ∀ (l : List DataField) (st : CStream) (first : Bool), st.ok = false →
      (csvHeaderGo a o l st first).1 = st := by
  intro l
  induction l with
  | nil => intro st first h; rfl
  | cons fld rest ih =>
    intro st first h
    unfold csvHeaderGo
    split
    · split
      · rw [fprintf_notok st _ h]; exact ih st false h
      · rw [fprintf_notok st _ h]; exact ih st first h
    · exact ih st first h

lemma csvRowGo_notok (a : Activity) (o : CSVOptions) (i : Nat) :
    ∀ (l : List DataField) (st : CStream) (first : Bool), st.ok = false →
      (csvRowGo a o i l st first).1 = st ∧ (csvRowGo a o i l st first).1.ok = false := by
  intro l
  induction l with
  | nil => intro st first h; exact ⟨rfl, h⟩
  | cons fld rest ih =>
    intro st first h
    have hwf := write_field_notok st (fieldFmt fld) i fld a o first h
    have hok2 : (write_field st (fieldFmt fld) i fld a o first).1.ok = false := by
      rw [hwf]; exact h
    have hrec := ih (write_field st (fieldFmt fld) i fld a o first).1
      (write_field st (fieldFmt fld) i fld a o first).2 hok2
    rw [hwf] at hrec
    unfold csvRowGo
    rw [hwf]
    exact hrec

/-- C5: csv_write_options never reports failure: even on a stream whose
writes all fail (and therefore receive none of the output), the return
value is 0, because no fprintf result is ever checked. -/
theorem c5_write_error_ignored (st : CStream) (a : Activity) (o : CSVOptions)
    (h : st.ok = false) :
    (csv_write_options st a o).2 = 0 ∧ (csv_write_options st a o).1 = st := by
  refine ⟨rfl, ?_⟩
  unfold csv_write_options
  have hh := csvHeaderGo_notok a o allFields st true h
  have hok1 : (csvHeaderGo a o allFields st true).1.ok = false := by rw [hh]; exact h
  have hnl := fprintf_notok (csvHeaderGo a o allFields st true).1 "\n" hok1
  have hfold :
      ∀ (idxs : List Nat) (s0 : CStream), s0.ok = false →
        idxs.foldl (fun acc i => fprintf (csvRowGo a o i allFields acc true).1 "\n") s0 = s0 := by
    intro idxs
    induction idxs with
    | nil => intro s0 h0; rfl
    | cons i rest ih =>
      intro s0 h0
      have hr := csvRowGo_notok a o i allFields s0 true h0
      simp only [List.foldl_cons]
      rw [fprintf_notok _ _ hr.2, hr.1]
      exact ih s0 h0
  rw [hnl, hh]
  exact hfold (List.range a.num_points) st h

/-- C5 witness: on a concrete failing stream the writer still returns
0 and the stream is untouched. -/
theorem c5_witness :
    (csv_write_options ⟨"", false⟩ activity_new ⟨false, "x"⟩).2 = 0 ∧
      (csv_write_options ⟨"", false⟩ activity_new ⟨false, "x"⟩).1 = ⟨"", false⟩ :=
  c5_write_error_ignored ⟨"", false⟩ activity_new ⟨false, "x"⟩ rfl

/-! ## CSV reader (src/csv.c, read_csv_header / read_csv_data / csv_read)

The fgets/strchr tokenization layer is modelled by presenting the file
as a list of lines each already split at the commas, with newlines
stripped (the source strips the newline of the final cell of every
line); cell text is otherwise passed through untouched. -/

/-- Modelled from the spec: CSV_MAX_FIELDS, the compile-time column cap
(csv.h is not in src/); its exact value is immaterial to the claims as
long as it is at least DataFieldCount. -/
def CSV_MAX_FIELDS : Nat := 20

/-- The header loop of read_csv_header (src/csv.c lines 120-142): walk
the cells while fewer than DataFieldCount recognized fields have been
seen and the column cap is not reached; every cell before the last has
a following comma and is handled by the loop; the final cell is
handled by the trailing if under the same guards.  The mapping array
data_fields receives the resolution of every scanned cell, recognized
or not. -/
def headerGo : List String → Nat → Nat → List (Option DataField) × Nat
  | [], _, count => ([], count)
  | [c], i, count =>
    if count < DataFieldCount ∧ i < CSV_MAX_FIELDS then
      ([name_to_field c], count + if (name_to_field c).isSome then 1 else 0)
    else ([], count)
  | c :: c2 :: rest, i, count =>
    if count < DataFieldCount ∧ i < CSV_MAX_FIELDS then
      (name_to_field c :: (headerGo (c2 :: rest) (i + 1)
          (count + if (name_to_field c).isSome then 1 else 0)).1,
       (headerGo (c2 :: rest) (i + 1)
          (count + if (name_to_field c).isSome then 1 else 0)).2)
    else ([], count)

/-- read_csv_header (src/csv.c lines 109-146) over the split header
line: returns the column-to-field mapping and the number of recognized
columns (0 signals failure). -/
def read_csv_header (cells : List String) : List (Option DataField) × Nat :=
  headerGo cells 0 0

/-- The per-row loop of read_csv_data (src/csv.c lines 171-193): walk
the cells while fewer than count recognized columns have been consumed
and the cap is not reached, parsing each cell whose column mapping is
recognized into the point; the final cell is handled by the trailing if
under the same guards. -/
def rowGo (count : Nat) (dfs : List (Option DataField)) :
    List String → Nat → Nat → DataPoint → DataPoint
  | [], _, _, dp => dp
  | [c], i, j, dp =>
    if j < count ∧ i < CSV_MAX_FIELDS then
      match dfs.getD i none with
      | some f => parse_field f dp c
      | none => dp
    else dp
  | c :: c2 :: rest, i, j, dp =>
    if j < count ∧ i < CSV_MAX_FIELDS then
      match dfs.getD i none with
      | some f => rowGo count dfs (c2 :: rest) (i + 1) (j + 1) (parse_field f dp c)
      | none => rowGo count dfs (c2 :: rest) (i + 1) j dp
    else dp

/-- read_csv_data (src/csv.c lines 160-199): for every line, parse a
fresh all-unset point from the mapped cells and append it. -/
def read_csv_data (dfs : List (Option DataField)) (count : Nat) :
    List (List String) → Activity → Activity
  | [], a => a
  | row :: rest, a =>
    read_csv_data dfs count rest
      (activity_add_point a (rowGo count dfs row 0 0 unset_data_point))

/-- csv_read (src/csv.c lines 217-229): fail when the header yields no
recognized column, otherwise read the body and tag the format. -/
def csv_read (lines : List (List String)) : Option Activity :=
  match lines with
  | [] => none
  | hdr :: rows =>
    if (read_csv_header hdr).2 = 0 then none
    else some { read_csv_data (read_csv_header hdr).1 (read_csv_header hdr).2
        rows activity_new with format := .csv }

/-- Count of recognized cells of a header line. -/
def recCount (cells : List String) : Nat :=
  cells.countP (fun c => (name_to_field c).isSome)

/-- Count of recognized mapping entries among cell/mapping pairs. -/
def recPairs (l : List (String × Option DataField)) : Nat :=
  l.countP (fun p => p.2.isSome)

/-- The rightmost cell among those paired with a mapping entry equal to
the given field (claim-side formalization of "the rightmost such column
wins"). -/
def lastMapped (f : DataField) : List (String × Option DataField) → Option String
  | [] => none
  | p :: rest =>
    match lastMapped f rest with
    | some c => some c
    | none => if p.2 = some f then some p.1 else none

/-- The value of the rightmost column of the header that resolves to
the given field, within a row. -/
def rightmostCell (hdr row : List String) (f : DataField) : Option String :=
  lastMapped f (row.zip (hdr.map name_to_field))

/-- One cell/mapping pair applied to a point: parse when the mapping is
recognized, otherwise leave the point alone. -/
def parseCell (dp : DataPoint) (p : String × Option DataField) : DataPoint :=
  match p.2 with
  | some f => parse_field f dp p.1
  | none => dp

/-- Parsing a row left to right with overwriting, ignoring unmapped
cells: the reference fold the row loop is proved equal to. -/
def foldParse (dp : DataPoint) : List (String × Option DataField) → DataPoint
  | [] => dp
  | p :: rest => foldParse (parseCell dp p) rest

lemma headerGo_full :
    ∀ (cells : List String) (i count : Nat),
      count + cells.length ≤ DataFieldCount →
      i + cells.length ≤ CSV_MAX_FIELDS →
      headerGo cells i count = (cells.map name_to_field, count + recCount cells) := by
  intro cells
  induction cells with
  | nil =>
    intro i count h1 h2
    simp [headerGo, recCount]
  | cons c tail ih =>
    intro i count h1 h2
    simp only [List.length_cons] at h1 h2
    have hc : count < DataFieldCount := by omega
    have hi : i < CSV_MAX_FIELDS := by omega
    cases tail with
    | nil =>
      rw [headerGo, if_pos ⟨hc, hi⟩]
      by_cases hs : (name_to_field c).isSome = true <;>
        simp [recCount, List.countP_cons, hs]
    | cons c2 rest =>
      simp only [List.length_cons] at h1 h2
      have hite : (if (name_to_field c).isSome then 1 else 0) ≤ 1 := by
        split <;> omega
      rw [headerGo, if_pos ⟨hc, hi⟩]
      rw [ih (i + 1) (count + if (name_to_field c).isSome then 1 else 0)
        (by simp only [List.length_cons]; omega)
        (by simp only [List.length_cons]; omega)]
      by_cases hs : (name_to_field c).isSome = true <;>
        simp [recCount, List.countP_cons, hs] <;> omega

lemma foldParse_nones :
    ∀ (l : List (String × Option DataField)) (dp : DataPoint),
      recPairs l = 0 → foldParse dp l = dp := by
  intro l
  induction l with
  | nil => intro dp h; rfl
  | cons p rest ih =>
    intro dp h
    simp only [recPairs, List.countP_cons] at h
    have h2 : p.2.isSome = false := by
      by_cases hs : p.2.isSome = true
      · simp [hs] at h
      · simpa using hs
    cases hp : p.2 with
    | some v => rw [hp] at h2; simp at h2
    | none =>
      have hpc : parseCell dp p = dp := by simp [parseCell, hp]
      rw [foldParse, hpc]
      exact ih dp (by simp only [recPairs]; omega)

lemma rowGo_eq (count : Nat) (dfs : List (Option DataField)) :
    ∀ (cells : List String) (i j : Nat) (dp : DataPoint),
      i + cells.length = dfs.length →
      i + cells.length ≤ CSV_MAX_FIELDS →
      j + recPairs (cells.zip (dfs.drop i)) = count →
      rowGo count dfs cells i j dp = foldParse dp (cells.zip (dfs.drop i)) := by
  intro cells
  induction cells with
  | nil =>
    intro i j dp h1 h2 h3
    simp [rowGo, foldParse]
  | cons c tail ih =>
    intro i j dp h1 h2 h3
    simp only [List.length_cons] at h1 h2
    have hi : i < dfs.length := by omega
    have hiMax : i < CSV_MAX_FIELDS := by omega
    have hdrop : dfs.drop i = dfs[i] :: dfs.drop (i + 1) :=
      List.drop_eq_getElem_cons hi
    have hgetD : dfs.getD i none = dfs[i] := by
      rw [List.getD_eq_getElem?_getD, List.getElem?_eq_getElem hi]
      rfl
    cases tail with
    | nil =>
      simp only [List.length_nil] at h1 h2
      rw [hdrop] at h3 ⊢
      rw [List.zip_cons_cons, List.zip_nil_left] at h3 ⊢
      cases hx : dfs[i] with
      | some f =>
        rw [hx] at h3
        simp only [recPairs, List.countP_cons, List.countP_nil,
          Option.isSome_some, if_true] at h3
        have hj : j < count := by omega
        rw [rowGo, if_pos ⟨hj, hiMax⟩, hgetD, hx]
        simp [foldParse, parseCell]
      | none =>
        rw [hx] at h3
        simp only [recPairs, List.countP_cons, List.countP_nil,
          Option.isSome_none, Bool.false_eq_true, if_false] at h3
        have hj : ¬ j < count := by omega
        rw [rowGo, if_neg (fun hcc => hj hcc.1)]
        simp [foldParse, parseCell]
    | cons c2 rest =>
      simp only [List.length_cons] at h1 h2
      rw [hdrop] at h3 ⊢
      rw [List.zip_cons_cons] at h3 ⊢
      cases hx : dfs[i] with
      | some f =>
        rw [hx] at h3
        simp only [recPairs, List.countP_cons, Option.isSome_some, if_true] at h3
        have hj : j < count := by omega
        rw [rowGo, if_pos ⟨hj, hiMax⟩, hgetD, hx, foldParse]
        rw [show parseCell dp (c, some f) = parse_field f dp c from rfl]
        exact ih (i + 1) (j + 1) (parse_field f dp c)
          (by simp only [List.length_cons]; omega)
          (by simp only [List.length_cons]; omega)
          (by simp only [recPairs]; omega)
      | none =>
        rw [hx] at h3
        simp only [recPairs, List.countP_cons, Option.isSome_none,
          Bool.false_eq_true, if_false] at h3
        by_cases hj : j < count
        · rw [rowGo, if_pos ⟨hj, hiMax⟩, hgetD, hx, foldParse]
          rw [show parseCell dp (c, none) = dp from rfl]
          exact ih (i + 1) j dp (by simp only [List.length_cons]; omega)
            (by simp only [List.length_cons]; omega)
            (by simp only [recPairs]; omega)
        · have hz : recPairs ((c2 :: rest).zip (dfs.drop (i + 1))) = 0 := by
            simp only [recPairs]; omega
          rw [rowGo, if_neg (fun hcc => hj hcc.1), foldParse]
          rw [show parseCell dp (c, none) = dp from rfl]
          exact (foldParse_nones _ dp hz).symm

lemma foldParse_data (f : DataField) :
    ∀ (l : List (String × Option DataField)) (dp : DataPoint),
      (foldParse dp l).data f =
        match lastMapped f l with
        | some c => some (parse_double c)
        | none => dp.data f := by
  intro l
  induction l with
  | nil => intro dp; rfl
  | cons p rest ih =>
    intro dp
    rw [foldParse, ih]
    cases hlm : lastMapped f rest with
    | some c => simp [lastMapped, hlm]
    | none =>
      simp only [lastMapped, hlm]
      cases hp2 : p.2 with
      | none => simp [parseCell, hp2]
      | some g =>
        by_cases hgf : g = f
        · subst hgf
          simp [parseCell, hp2, parse_field, Function.update]
        · simp [parseCell, hp2, parse_field, Function.update, hgf, Ne.symm hgf]

lemma read_csv_data_points (dfs : List (Option DataField)) (count : Nat) :
    ∀ (rows : List (List String)) (a : Activity),
      (read_csv_data dfs count rows a).data_points =
        a.data_points ++ rows.map (fun row => rowGo count dfs row 0 0 unset_data_point) := by
  intro rows
  induction rows with
  | nil => intro a; simp [read_csv_data]
  | cons r rest ih =>
    intro a
    rw [read_csv_data, ih]
    simp [activity_add_point]

lemma recPairs_zip :
    ∀ (xs : List String) (ys : List (Option DataField)), xs.length = ys.length →
      recPairs (xs.zip ys) = ys.countP (fun o => o.isSome) := by
  intro xs
  induction xs with
  | nil =>
    intro ys h
    cases ys with
    | nil => rfl
    | cons y t => simp at h
  | cons x xt ih =>
    intro ys h
    cases ys with
    | nil => simp at h
    | cons y yt =>
      simp only [List.length_cons] at h
      have hih := ih yt (by omega)
      simp only [recPairs] at hih ⊢
      simp [List.zip_cons_cons, List.countP_cons, hih]

/-- C8 (amended): for a CSV file whose header has at most DataFieldCount
columns (so that every column is scanned into the mapping) and whose
rows are aligned with the header, the value a row yields for any field
is the parse of the rightmost cell lying in a column that resolves to
that field, because the body parser overwrites earlier values in the
same point; in particular with duplicated recognized columns the
rightmost one wins. -/
theorem c8_rightmost_wins (hdr : List String) (rows : List (List String))
    (a : Activity) (k : Nat) (f : DataField)
    (hlen : hdr.length ≤ DataFieldCount)
    (hrows : ∀ r ∈ rows, r.length = hdr.length)
    (hread : csv_read (hdr :: rows) = some a)
    (hk : k < rows.length) :
    (a.data_points.getD k unset_data_point).data f =
      (rightmostCell hdr (rows.getD k []) f).map parse_double := by
  have hcap : DataFieldCount ≤ CSV_MAX_FIELDS := by decide
  have hhdr : read_csv_header hdr = (hdr.map name_to_field, recCount hdr) := by
    unfold read_csv_header
    rw [headerGo_full hdr 0 0 (by omega) (by omega)]
    simp
  simp only [csv_read, hhdr] at hread
  by_cases h0 : recCount hdr = 0
  · simp [h0] at hread
  · simp only [h0, if_false, Option.some.injEq] at hread
    subst hread
    have hpoints :
        (read_csv_data (hdr.map name_to_field) (recCount hdr) rows activity_new).data_points =
          rows.map (fun row => rowGo (recCount hdr) (hdr.map name_to_field) row 0 0 unset_data_point) := by
      rw [read_csv_data_points]
      simp [activity_new]
    have hrowk : rows.getD k [] = rows[k] := by
      rw [List.getD_eq_getElem?_getD, List.getElem?_eq_getElem hk]
      rfl
    have hgetk :
        ((rows.map (fun row => rowGo (recCount hdr) (hdr.map name_to_field) row 0 0 unset_data_point)).getD
          k unset_data_point) =
          rowGo (recCount hdr) (hdr.map name_to_field) rows[k] 0 0 unset_data_point := by
      rw [List.getD_eq_getElem?_getD, List.getElem?_map, List.getElem?_eq_getElem hk]
      rfl
    have hlenk : rows[k].length = hdr.length := hrows rows[k] (List.getElem_mem hk)
    have hzipcnt : recPairs (rows[k].zip (hdr.map name_to_field)) = recCount hdr := by
      rw [recPairs_zip rows[k] (hdr.map name_to_field) (by simp [hlenk])]
      rw [List.countP_map]
      rfl
    have hrow :
        rowGo (recCount hdr) (hdr.map name_to_field) rows[k] 0 0 unset_data_point =
          foldParse unset_data_point (rows[k].zip (hdr.map name_to_field)) := by
      have := rowGo_eq (recCount hdr) (hdr.map name_to_field) rows[k] 0 0 unset_data_point
        (by simp [hlenk]) (by simp [hlenk]; omega) (by simpa using hzipcnt)
      simpa using this
    show ((read_csv_data (hdr.map name_to_field) (recCount hdr) rows activity_new).data_points.getD
        k unset_data_point).data f = _
    rw [hpoints, hgetk, hrow, foldParse_data]
    rw [rightmostCell, hrowk]
    cases lastMapped f (rows[k].zip (hdr.map name_to_field)) <;> rfl

/-- C8 witness: a two-column CSV with a duplicated power column; the
rightmost value wins. -/
theorem c8_witness :
    ((((csv_read [["power", "power"], ["7", "9"]]).getD activity_new).data_points.getD
        0 unset_data_point).data Power) =
      (rightmostCell ["power", "power"] (([["7", "9"]] : List (List String)).getD 0 []) Power).map parse_double := by
  have h := c8_rightmost_wins ["power", "power"] [["7", "9"]]
    ((csv_read [["power", "power"], ["7", "9"]]).getD activity_new) 0 Power
    (by decide) (by decide) rfl (by decide)
  exact h

/-- C8 counterexample: a header of 13 columns whose first and last
columns are both power; the reader stops scanning once 12 recognized
fields have been seen, so the 13th column is never mapped and the first
power value survives instead of the rightmost. -/
theorem c8_cex :
    ((((csv_read
        [["power", "timestamp", "latitude", "longitude", "altitude", "distance",
          "speed", "grade", "heart_rate", "cadence", "lr_balance", "temperature",
          "power"],
         ["7", "1", "2", "3", "4", "5", "6", "8", "9", "10", "11", "12", "9"]]).getD
        activity_new).data_points.getD 0 unset_data_point).data Power) = some 7 ∧
    (rightmostCell
        ["power", "timestamp", "latitude", "longitude", "altitude", "distance",
         "speed", "grade", "heart_rate", "cadence", "lr_balance", "temperature",
         "power"]
        ["7", "1", "2", "3", "4", "5", "6", "8", "9", "10", "11", "12", "9"]
        Power).map parse_double = some 9 ∧
    (some (7 : ℚ)) ≠ some 9 := by
  refine ⟨by decide, by decide, by decide⟩

/-! ## GPX SAX handler (src/gpx.c, sax_cb / fix_laps / gpx_read)

The mxml SAX layer is modelled from the spec as a stream of events:
element open (with attributes), element close (with the accumulated
opaque text of the retained node), and character data.  Returning 1
from the callback aborts the load and mxmlSAXLoadFile yields no tree,
so gpx_read returns nothing. -/

/-- A SAX event as dispatched by the external XML parser. -/
inductive SaxEvent
  | elemOpen (name : String) (attrs : List (String × String))
  | elemClose (name : String) (data : String)
  | charData
deriving DecidableEq, Repr

/-- Parser state threaded through sax_cb (the State struct of
src/gpx.c lines 64-75). -/
structure SaxState where
  activity : Activity
  metadata : Bool
  first_element : Bool
  dp : DataPoint
  wpt : Bool
  trkseg : Bool
  lap_times : List Nat
  laps : List Nat
  lap_num : Nat

/-- trkpt open: parse the lat attribute into the current point when
present (src/gpx.c lines 120-123). -/
def trkptLat (dp : DataPoint) (attrs : List (String × String)) : DataPoint :=
  match attrs.lookup "lat" with
  | some v => parse_field Latitude dp v
  | none => dp

/-- trkpt open: parse lat then lon into the current point
(src/gpx.c lines 119-127). -/
def trkptAttrs (dp : DataPoint) (attrs : List (String × String)) : DataPoint :=
  match attrs.lookup "lon" with
  | some v => parse_field Longitude (trkptLat dp attrs) v
  | none => trkptLat dp attrs

/-- The MXML_SAX_ELEMENT_OPEN arm of sax_cb (src/gpx.c lines 99-129):
inside metadata everything is ignored; the first element must be gpx or
the parse aborts; metadata, wpt, trkseg set their flags; trkpt parses
the coordinate attributes; first_element is cleared. -/
def sax_open (st : SaxState) (name : String) (attrs : List (String × String)) :
    SaxState × Nat :=
  if st.metadata then (st, 0)
  else if st.first_element ∧ name ≠ "gpx" then (st, 1)
  else if name = "metadata" then ({ st with metadata := true, first_element := false }, 0)
  else if name = "wpt" then ({ st with wpt := true, first_element := false }, 0)
  else if name = "trkseg" then ({ st with trkseg := true, first_element := false }, 0)
  else if name = "trkpt" then
    ({ st with dp := trkptAttrs st.dp attrs, first_element := false }, 0)
  else ({ st with first_element := false }, 0)

/-- The lap-time comparison performed at trkpt close (src/gpx.c lines
161-164): the source reads lap_times[lap_num] unconditionally; the
out-of-bounds read (no element to compare) is modelled as comparing
unequal, and is recorded separately by lapReadOOB below.  An unset
timestamp is the unset sentinel double, which never equals a stored
uint32 lap time, modelled as no match. -/
def lapMatchStep (st : SaxState) : SaxState :=
  match st.lap_times.get? st.lap_num, st.dp.data Timestamp with
  | some lt, some t =>
    if t = (lt : ℚ) then
      { st with
        laps := st.laps ++ [st.activity.num_points - 1]
        lap_num := st.lap_num + 1 }
    else st
  | _, _ => st

/-- The segment-end bookkeeping at trkpt close (src/gpx.c lines
165-168): while the trkseg flag is up, the point index num_points-1 is
appended to activity.breaks and the flag cleared. -/
def segBreakStep (st : SaxState) : SaxState :=
  if st.trkseg then
    { st with
      activity := { st.activity with
        breaks := st.activity.breaks ++ [st.activity.num_points - 1] }
      trkseg := false }
  else st

/-- trkpt close (src/gpx.c lines 157-169): append the point, try to
match a lap time, record a segment break, reset the point.  The
activity-append failure abort is not modelled (allocation is assumed to
succeed). -/
def closeTrkpt (st : SaxState) : SaxState × Nat :=
  ({ segBreakStep (lapMatchStep
      { st with activity := activity_add_point st.activity st.dp }) with
    dp := unset_data_point }, 0)

/-- The MXML_SAX_ELEMENT_CLOSE arm of sax_cb (src/gpx.c lines 130-170).
Note the time element: inside a wpt its timestamp joins lap_times;
otherwise it is parsed into the point AND appended (cast to uint32) to
activity.breaks. -/
def sax_close (st : SaxState) (name : String) (data : String) : SaxState × Nat :=
  if name = "metadata" then ({ st with metadata := false }, 0)
  else if st.metadata then (st, 0)
  else if name = "wpt" then ({ st with wpt := false }, 0)
  else if name = "time" then
    if st.wpt then
      ({ st with lap_times := st.lap_times ++ [toU32 (parse_timestamp data)] }, 0)
    else
      ({ st with
        dp := parse_field Timestamp st.dp data
        activity := { st.activity with breaks := st.activity.breaks ++
          [ratToU32 (((parse_field Timestamp st.dp data).data Timestamp).getD 0)] } }, 0)
  else if name = "ele" then ({ st with dp := parse_field Altitude st.dp data }, 0)
  else if name = "gpxdata:hr" ∨ name = "gpxtpx:hr" then
    ({ st with dp := parse_field HeartRate st.dp data }, 0)
  else if name = "gpxdata:temp" ∨ name = "gpxtpx:atemp" then
    ({ st with dp := parse_field Temperature st.dp data }, 0)
  else if name = "gpxdata:cadence" ∨ name = "gpxtpx:cad" then
    ({ st with dp := parse_field Cadence st.dp data }, 0)
  else if name = "gpxdata:bikepower" then
    ({ st with dp := parse_field Power st.dp data }, 0)
  else if name = "trkpt" then closeTrkpt st
  else (st, 0)

/-- sax_cb (src/gpx.c lines 95-176) on one event; MXML_SAX_DATA only
retains the node. -/
def sax_cb (st : SaxState) : SaxEvent → SaxState × Nat
  | .elemOpen name attrs => sax_open st name attrs
  | .elemClose name data => sax_close st name data
  | .charData => (st, 0)

/-- Observer: does this event take the bare-time branch (a time element
closing outside metadata and outside a wpt, src/gpx.c lines 143-145)? -/
def bareTimeAt (st : SaxState) : SaxEvent → Bool
  | .elemClose name _ => name = "time" && !st.metadata && !st.wpt
  | _ => false

/-- Observer: does this event reach the trkpt-close lap comparison with
lap_num outside lap_times (the unchecked read of src/gpx.c line 161)? -/
def lapReadOOB (st : SaxState) : SaxEvent → Bool
  | .elemClose name _ =>
    name = "trkpt" && !st.metadata && decide (st.lap_times.length ≤ st.lap_num)
  | _ => false

/-- Result of running the SAX callback over an event stream: the final
state, whether the callback aborted, and the two instrumentation flags
(whether any bare time element was seen, and whether any trkpt close
read lap_times out of bounds). -/
structure RunResult where
  state : SaxState
  aborted : Bool
  bareTime : Bool
  lapOOB : Bool

/-- Run sax_cb over the events, stopping at the first abort, recording
the observers. -/
def runSAX : SaxState → List SaxEvent → RunResult
  | st, [] => ⟨st, false, false, false⟩
  | st, e :: rest =>
    if (sax_cb st e).2 ≠ 0 then
      ⟨(sax_cb st e).1, true, bareTimeAt st e, lapReadOOB st e⟩
    else
      ⟨(runSAX (sax_cb st e).1 rest).state,
       (runSAX (sax_cb st e).1 rest).aborted,
       bareTimeAt st e || (runSAX (sax_cb st e).1 rest).bareTime,
       lapReadOOB st e || (runSAX (sax_cb st e).1 rest).lapOOB⟩

/-- The initial State of gpx_read (src/gpx.c lines 242-254). -/
def initState : SaxState :=
  { activity := activity_new, metadata := false, first_element := true
    dp := unset_data_point, wpt := false, trkseg := false
    lap_times := [], laps := [], lap_num := 0 }

/-- One uint32 subtraction of 1, as computed for breaks[j]-1 on the
uint32 vector elements in fix_laps (src/gpx.c lines 198-201). -/
def u32sub1 (b : Nat) : Nat := (b + 4294967295) % 4294967296

/-- The body of the parallel walk of fix_laps (src/gpx.c lines
196-207), returning the final i; the stray statement match = false has
no effect (the variable is never read) and is omitted.  Since j grows
by one on every iteration, the walk is written by recursion on the fuel
breaks.length - j, which reaches 0 exactly when the loop guard
j < breaks.length fails. -/
def fixLapsGo (laps breaks : List Nat) : Nat → Nat → Nat → Nat
  | 0, i, _ => i
  | fuel + 1, i, j =>
    if i < laps.length ∧ j < breaks.length then
      if laps.getD i 0 = u32sub1 (breaks.getD j 0) then
        fixLapsGo laps breaks fuel (i + 1) (j + 1)
      else if laps.getD i 0 > u32sub1 (breaks.getD j 0) then
        fixLapsGo laps breaks fuel i (j + 1)
      else i
    else i

/-- The parallel walk of fix_laps from positions i and j. -/
def fixLapsLoop (laps breaks : List Nat) (i j : Nat) : Nat :=
  fixLapsGo laps breaks (breaks.length - j) i j

/-- fix_laps (src/gpx.c lines 178-219), normalizing the pointer/value
slips the spec's design notes flag: append the default starting lap 1
to the activity's laps; stop if only one lap was collected (the
first disjunct of the guard at line 186 compares the State pointer with
a number and is always false on the reachable path where s->laps is
non-null); if more than one lap and more than one break were collected
and there are at least as many breaks, run the parallel walk from
index 1, set tweak when it matched every lap, and append the collected
laps from index 1 up to size - tweak, shifted by tweak. -/
def fix_laps (activityLaps stateLaps breaks : List Nat) : List Nat :=
  if stateLaps.length = 1 then activityLaps ++ [1]
  else if stateLaps.length > 1 ∧ breaks.length > 1 ∧
      stateLaps.length ≤ breaks.length then
    (activityLaps ++ [1]) ++
      ((stateLaps.drop 1).take (stateLaps.length -
          (if fixLapsLoop stateLaps breaks 1 1 = stateLaps.length then 1 else 0) - 1)).map
        (fun x => x + (if fixLapsLoop stateLaps breaks 1 1 = stateLaps.length then 1 else 0))
  else activityLaps ++ [1]

/-- gpx_read (src/gpx.c lines 240-273): run the SAX parse; if it
aborted, mxmlSAXLoadFile yields no tree and nothing is returned;
otherwise tag the format and, when lap waypoints were collected
(state.laps non-null), reconcile them with fix_laps. -/
def gpx_read (events : List SaxEvent) : Option Activity :=
  if (runSAX initState events).aborted then none
  else if (runSAX initState events).state.laps ≠ [] then
    some { (runSAX initState events).state.activity with
      format := .gpx
      laps := fix_laps (runSAX initState events).state.activity.laps
        (runSAX initState events).state.laps
        (runSAX initState events).state.activity.breaks }
  else some { (runSAX initState events).state.activity with format := .gpx }

/-- Breaks invariant: every entry of breaks is a valid point index. -/
def breaksInv (a : Activity) : Prop :=
  ∀ b ∈ a.breaks, b < a.num_points

lemma add_point_num (a : Activity) (dp : DataPoint) :
    (activity_add_point a dp).num_points = a.num_points + 1 := by
  simp [activity_add_point, Activity.num_points]

lemma add_point_breaks (a : Activity) (dp : DataPoint) :
    (activity_add_point a dp).breaks = a.breaks := rfl

lemma breaksInv_add (a : Activity) (dp : DataPoint) (h : breaksInv a) :
    breaksInv (activity_add_point a dp) := by
  intro b hb
  rw [add_point_breaks] at hb
  rw [add_point_num]
  have := h b hb
  omega

lemma lapMatch_activity (st : SaxState) :
    (lapMatchStep st).activity = st.activity := by
  unfold lapMatchStep
  split
  · split <;> rfl
  · rfl

lemma segBreak_inv (st : SaxState) (h : breaksInv st.activity)
    (hn : 1 ≤ st.activity.num_points) :
    breaksInv (segBreakStep st).activity := by
  unfold segBreakStep
  split
  · intro b hb
    simp only [List.mem_append, List.mem_singleton] at hb
    have hnum :
        ({ st.activity with breaks := st.activity.breaks ++
          [st.activity.num_points - 1] } : Activity).num_points =
          st.activity.num_points := rfl
    rcases hb with hb | hb
    · have := h b hb
      rw [hnum]
      omega
    · subst hb
      rw [hnum]
      omega
  · exact h

lemma closeTrkpt_inv (st : SaxState) (hinv : breaksInv st.activity) :
    breaksInv (closeTrkpt st).1.activity := by
  show breaksInv (segBreakStep (lapMatchStep
    { st with activity := activity_add_point st.activity st.dp })).activity
  apply segBreak_inv
  · rw [lapMatch_activity]
    exact breaksInv_add _ _ hinv
  · rw [lapMatch_activity]
    show 1 ≤ (activity_add_point st.activity st.dp).num_points
    rw [add_point_num]
    omega

lemma sax_open_activity (st : SaxState) (name : String)
    (attrs : List (String × String)) :
    (sax_open st name attrs).1.activity = st.activity := by
  unfold sax_open
  split_ifs <;> rfl

set_option maxHeartbeats 1000000 in
lemma sax_cb_inv (st : SaxState) (e : SaxEvent)
    (hinv : breaksInv st.activity) (hbt : bareTimeAt st e = false) :
    breaksInv (sax_cb st e).1.activity := by
  cases e with
  | charData => exact hinv
  | elemOpen name attrs =>
    show breaksInv (sax_open st name attrs).1.activity
    rw [sax_open_activity]
    exact hinv
  | elemClose name data =>
    show breaksInv (sax_close st name data).1.activity
    unfold sax_close
    split_ifs with h1 h2 h3 h4 h5 h6 h7 h8 h9 h10 h11
    · exact hinv
    · exact hinv
    · exact hinv
    · exact hinv
    · exfalso
      simp [bareTimeAt, h4, h2, h5] at hbt
    · exact hinv
    · exact hinv
    · exact hinv
    · exact hinv
    · exact hinv
    · exact closeTrkpt_inv st hinv
    · exact hinv

lemma runSAX_inv :
    ∀ (events : List SaxEvent) (st : SaxState), breaksInv st.activity →
      (runSAX st events).bareTime = false →
      breaksInv (runSAX st events).state.activity := by
  intro events
  induction events with
  | nil => intro st h hb; exact h
  | cons e rest ih =>
    intro st h hb
    rw [runSAX] at hb ⊢
    by_cases habort : (sax_cb st e).2 ≠ 0
    · rw [if_pos habort] at hb ⊢
      exact sax_cb_inv st e h hb
    · rw [if_neg habort] at hb ⊢
      simp only [Bool.or_eq_false_iff] at hb
      exact ih (sax_cb st e).1 (sax_cb_inv st e h hb.1) hb.2

/-- C1 (amended): after a successful gpx_read of a stream containing no
bare time element (a time closing outside metadata and outside a wpt),
every entry of activity.breaks is an index of a point in data_points:
the entries appended at track-segment ends are point indices.  (A bare
time element instead appends the parsed timestamp value itself, cast to
uint32, which need not be a point index; see the counterexample.) -/
theorem c1_breaks_are_indices (events : List SaxEvent) (a : Activity)
    (hread : gpx_read events = some a)
    (hbt : (runSAX initState events).bareTime = false) :
    a.breaks.all (fun b => decide (b < a.num_points)) = true := by
  unfold gpx_read at hread
  by_cases hab : (runSAX initState events).aborted
  · rw [if_pos hab] at hread
    exact absurd hread (by simp)
  · rw [if_neg hab] at hread
    have hinv : breaksInv (runSAX initState events).state.activity :=
      runSAX_inv events initState
        (by intro b hb; simp [initState, activity_new] at hb) hbt
    have hgoal : ∀ (x : Activity), x.breaks = (runSAX initState events).state.activity.breaks →
        x.num_points = (runSAX initState events).state.activity.num_points →
        x.breaks.all (fun b => decide (b < x.num_points)) = true := by
      intro x hbx hnx
      rw [List.all_eq_true]
      intro b hb
      rw [decide_eq_true_iff]
      rw [hbx] at hb
      rw [hnx]
      exact hinv b hb
    by_cases hlaps : (runSAX initState events).state.laps ≠ []
    · rw [if_pos hlaps, Option.some.injEq] at hread
      subst hread
      exact hgoal _ rfl rfl
    · rw [if_neg hlaps, Option.some.injEq] at hread
      subst hread
      exact hgoal _ rfl rfl

/-- Concrete stream for the C1 witness: one track segment whose end
marks a break. -/
def c1wEvents : List SaxEvent :=
  [.elemOpen "gpx" [], .elemOpen "trkseg" [],
   .elemOpen "trkpt" [("lat", "1"), ("lon", "2")], .elemClose "trkpt" ""]

/-- The activity read from the C1 witness stream. -/
def c1wAct : Activity := (gpx_read c1wEvents).getD activity_new

/-- C1 witness: the witness stream parses successfully with no bare
time element, and every break entry is a point index. -/
theorem c1_witness :
    c1wAct.breaks.all (fun b => decide (b < c1wAct.num_points)) = true :=
  c1_breaks_are_indices c1wEvents c1wAct (by rfl) (by rfl)

/-- Concrete stream for the C1 counterexample: a wpt lap time, then a
trkpt carrying a bare time element with timestamp 100. -/
def c1cEvents : List SaxEvent :=
  [.elemOpen "gpx" [], .elemOpen "wpt" [], .elemClose "time" "999",
   .elemClose "wpt" "", .elemOpen "trkpt" [("lat", "37"), ("lon", "122")],
   .elemClose "time" "100", .elemClose "trkpt" ""]

/-- C1 counterexample: a successful gpx_read whose breaks hold the raw
timestamp value 100 while only one point exists, so the entry is not an
index of any point in data_points. -/
theorem c1_cex :
    (gpx_read c1cEvents).map Activity.breaks = some [100] ∧
    (gpx_read c1cEvents).map Activity.num_points = some 1 ∧
    ¬ (100 < 1) := by
  refine ⟨by rfl, by rfl, by decide⟩

/-- C7: a well-formed document whose root element is not gpx makes the
callback abort on the very first open event, so gpx_read returns
nothing and no data point is ever appended. -/
theorem c7_non_gpx_abort (name : String) (attrs : List (String × String))
    (rest : List SaxEvent) (h : name ≠ "gpx") :
    gpx_read (SaxEvent.elemOpen name attrs :: rest) = none ∧
    (runSAX initState (SaxEvent.elemOpen name attrs :: rest)).state.activity.num_points = 0 := by
  have hstep : sax_cb initState (SaxEvent.elemOpen name attrs) = (initState, 1) := by
    show sax_open initState name attrs = (initState, 1)
    unfold sax_open initState
    simp [h]
  constructor
  · unfold gpx_read
    rw [runSAX, hstep]
    rfl
  · rw [runSAX, hstep]
    rfl

/-- C7 witness: an html-rooted document is rejected with no points. -/
theorem c7_witness :
    gpx_read [SaxEvent.elemOpen "html" []] = none ∧
    (runSAX initState [SaxEvent.elemOpen "html" []]).state.activity.num_points = 0 :=
  c7_non_gpx_abort "html" [] [] (by decide)

/-- Concrete stream for C10: a single trkpt and no wpt, so lap_times
stays empty while its element 0 is read at trkpt close. -/
def c10Events : List SaxEvent :=
  [.elemOpen "gpx" [], .elemOpen "trkpt" [("lat", "37"), ("lon", "122")],
   .elemClose "trkpt" ""]

/-- C10: the trkpt-close lap comparison reads lap_times[lap_num]
unconditionally; on a stream with no wpt, lap_times is empty and the
read at lap_num = 0 is out of bounds, refuting the claim that the
access is always in bounds.  The parse itself does not abort. -/
theorem c10_lap_read_out_of_bounds :
    (runSAX initState c10Events).lapOOB = true ∧
    (runSAX initState c10Events).state.lap_times = [] ∧
    (runSAX initState c10Events).aborted = false := by
  refine ⟨by rfl, by rfl, by rfl⟩

/-! ## Lap reconciliation (claim C2) -/

/-- The end-pairing walk stated on lists: every remaining lap index
must equal some later break minus one (uint32 arithmetic), with a
non-decreasing break cursor; laps exhausted means success, breaks
exhausted first means failure. -/
def endPairing : List Nat → List Nat → Bool
  | [], _ => true
  | _ :: _, [] => false
  | l :: ls, b :: bs =>
    if l = u32sub1 b then endPairing ls bs
    else if l > u32sub1 b then endPairing (l :: ls) bs
    else false

/-- The behaviour of fix_laps stated from the amended claim: the
starting lap 1 is appended first; a single collected lap is dropped in
favour of it; when the count guard (more than one lap, more than one
break, no more laps than breaks) holds, the collected laps from the
second onward are appended, shifted by one with the last dropped when
every one of them pairs in order with a break minus one, and unchanged
otherwise; when the count guard fails, every collected lap is
discarded. -/
def fixLapsSpec (activityLaps stateLaps breaks : List Nat) : List Nat :=
  if stateLaps.length ≤ 1 then activityLaps ++ [1]
  else if breaks.length > 1 ∧ stateLaps.length ≤ breaks.length then
    if endPairing (stateLaps.drop 1) (breaks.drop 1) then
      (activityLaps ++ [1]) ++ ((stateLaps.drop 1).dropLast.map (fun x => x + 1))
    else (activityLaps ++ [1]) ++ stateLaps.drop 1
  else activityLaps ++ [1]

/-- The behaviour of fix_laps exactly as the claim words it: prepend
the implicit starting lap 1; stop on at most one collected lap; if
every collected lap index pairs with a break minus one over
non-decreasing break positions, shift each collected index by one and
drop the final spurious entry; otherwise keep the collected indices
as-is. -/
def fixLapsClaim (activityLaps stateLaps breaks : List Nat) : List Nat :=
  if stateLaps.length ≤ 1 then activityLaps ++ [1]
  else if endPairing stateLaps breaks then
    (activityLaps ++ [1]) ++ (stateLaps.map (fun x => x + 1)).dropLast
  else (activityLaps ++ [1]) ++ stateLaps

lemma fixLapsGo_pairing (laps breaks : List Nat) :
    ∀ (n i j : Nat), n = breaks.length - j → i ≤ laps.length → j ≤ breaks.length →
      (fixLapsGo laps breaks n i j = laps.length ↔
        endPairing (laps.drop i) (breaks.drop j) = true) := by
  intro n
  induction n with
  | zero =>
    intro i j hn hi hj
    have hjl : j = breaks.length := by omega
    rw [show breaks.drop j = ([] : List Nat) from by rw [hjl]; simp]
    rw [fixLapsGo]
    constructor
    · intro h
      rw [show laps.drop i = ([] : List Nat) from by rw [h]; simp]
      rfl
    · intro h
      by_cases hd : laps.drop i = []
      · have hle : laps.length ≤ i := by
          have := congrArg List.length hd
          simp at this
          omega
        omega
      · obtain ⟨x, xs, hxx⟩ := List.exists_cons_of_ne_nil hd
        rw [hxx] at h
        simp [endPairing] at h
  | succ n ih =>
    intro i j hn hi hj
    have hjlt : j < breaks.length := by omega
    rw [fixLapsGo]
    by_cases hil : i < laps.length
    · rw [if_pos ⟨hil, hjlt⟩]
      have hldrop : laps.drop i = laps[i] :: laps.drop (i + 1) :=
        List.drop_eq_getElem_cons hil
      have hbdrop : breaks.drop j = breaks[j] :: breaks.drop (j + 1) :=
        List.drop_eq_getElem_cons hjlt
      have hlg : laps.getD i 0 = laps[i] := by
        rw [List.getD_eq_getElem?_getD, List.getElem?_eq_getElem hil]
        rfl
      have hbg : breaks.getD j 0 = breaks[j] := by
        rw [List.getD_eq_getElem?_getD, List.getElem?_eq_getElem hjlt]
        rfl
      rw [hlg, hbg, hldrop, hbdrop, endPairing]
      by_cases he : laps[i] = u32sub1 breaks[j]
      · rw [if_pos he, if_pos he]
        have hrec := ih (i + 1) (j + 1) (by omega) (by omega) (by omega)
        exact hrec
      · rw [if_neg he, if_neg he]
        by_cases hgt : laps[i] > u32sub1 breaks[j]
        · rw [if_pos hgt, if_pos hgt]
          have hrec := ih i (j + 1) (by omega) hi (by omega)
          rw [hldrop] at hrec
          exact hrec
        · rw [if_neg hgt, if_neg hgt]
          constructor
          · intro hc
            exact absurd hc (by omega)
          · intro hc
            simp at hc
    · have hieq : i = laps.length := by omega
      rw [if_neg (fun hcc => hil hcc.1)]
      rw [show laps.drop i = ([] : List Nat) from by rw [hieq]; simp]
      rw [show endPairing [] (breaks.drop j) = true from by
        cases hbd : breaks.drop j <;> rfl]
      simp [hieq]

/-- C2 (amended): fix_laps appends the default starting lap 1 to the
activity laps; stops there when at most one lap was collected; when the
count guard (more than one collected lap, more than one break, no more
laps than breaks) fails it discards every collected lap; and otherwise
appends the collected laps from the second onward, shifted by one with
the final entry dropped exactly when every collected lap from the
second onward pairs in order with a break minus one, unchanged
otherwise.  The first collected lap index never reaches the
activity. -/
theorem c2_fix_laps_characterized (activityLaps stateLaps breaks : List Nat) :
    fix_laps activityLaps stateLaps breaks =
      fixLapsSpec activityLaps stateLaps breaks := by
  unfold fix_laps fixLapsSpec
  by_cases h1 : stateLaps.length = 1
  · rw [if_pos h1, if_pos (by omega)]
  · rw [if_neg h1]
    by_cases h0 : stateLaps.length = 0
    · rw [if_pos (by omega : stateLaps.length ≤ 1)]
      rw [if_neg (by omega : ¬ (stateLaps.length > 1 ∧ breaks.length > 1 ∧
        stateLaps.length ≤ breaks.length))]
    · rw [if_neg (by omega : ¬ stateLaps.length ≤ 1)]
      by_cases hg : breaks.length > 1 ∧ stateLaps.length ≤ breaks.length
      · rw [if_pos (show stateLaps.length > 1 ∧ breaks.length > 1 ∧
          stateLaps.length ≤ breaks.length from ⟨by omega, hg.1, hg.2⟩)]
        rw [if_pos hg]
        have hpair := fixLapsGo_pairing stateLaps breaks (breaks.length - 1) 1 1
          rfl (by omega) (by omega)
        by_cases hep : endPairing (stateLaps.drop 1) (breaks.drop 1) = true
        · have hloop : fixLapsLoop stateLaps breaks 1 1 = stateLaps.length :=
            hpair.mpr hep
          rw [if_pos hep, if_pos hloop]
          rw [List.dropLast_eq_take, List.length_drop]
        · have hloop : ¬ fixLapsLoop stateLaps breaks 1 1 = stateLaps.length :=
            fun hc => hep (hpair.mp hc)
          rw [if_neg hloop, if_neg hep]
          have htake : (stateLaps.drop 1).take (stateLaps.length - 0 - 1) =
              stateLaps.drop 1 := by
            apply List.take_of_length_le
            simp
          rw [htake]
          simp
      · rw [if_neg (fun hcc => hg ⟨hcc.2.1, hcc.2.2⟩), if_neg hg]

/-- C2 counterexample: collected laps [5, 9] with breaks [3, 6, 10].
The claim's pairing succeeds over all collected laps (5 = 6-1 and
9 = 10-1), so the claim predicts [1, 6]; the source walks from index 1
only and also starts its copy at index 1, producing just [1]. -/
theorem c2_cex :
    fix_laps [] [5, 9] [3, 6, 10] = [1] ∧
    fixLapsClaim [] [5, 9] [3, 6, 10] = [1, 6] ∧
    ([1] : List Nat) ≠ [1, 6] := by
  refine ⟨by decide, by decide, by decide⟩

/-! ## GPX writer (src/gpx.c, to_gpx_xml / gpx_write_options)

The mxml tree is modelled as a small XML node type; building the tree
with mxmlNewElement/mxmlNewText corresponds to building the children
lists below in document order.  mxmlSaveFile appends the whole document
to the output stream. -/

/-- An XML node: an element with attributes and children, or text. -/
inductive XNode where
  | elem (name : String) (attrs : List (String × String)) (children : List XNode)
  | txt (s : String)

/-- Element name of a node (text nodes have none). -/
def XNode.nameOf : XNode → String
  | .elem n _ _ => n
  | .txt _ => ""

/-- Children of a node. -/
def XNode.childrenOf : XNode → List XNode
  | .elem _ _ cs => cs
  | .txt _ => []

/-- Attribute lookup on a node. -/
def XNode.attrOf (x : XNode) (key : String) : Option String :=
  match x with
  | .elem _ attrs _ => attrs.lookup key
  | .txt _ => none

/-- Whether a node is an element with the given name. -/
def isNamed (n : String) (x : XNode) : Bool := x.nameOf = n

/-- Options of the GPX writer (gpx.h, spec section 4.5). -/
structure GPXOptions where
  add_laps : Bool
  lap_trksegs : Bool

/-- The field value of point i of an activity (out of range reads yield
the all-unset point; the C source would read out of bounds there, a
path no claim exercises). -/
def pointVal (a : Activity) (i : Nat) (f : DataField) : Option ℚ :=
  (a.data_points.getD i unset_data_point).data f

/-- Rendering of a possibly-unset double attribute: the C source
printf-formats whatever is stored, including the unset sentinel, which
is modelled by a distinguished rendering. -/
def fmtDouble (x : Option ℚ) : String :=
  match x with
  | some q => ratRender q
  | none => "unset"

/-- Rendering of mxmlNewInteger (double cast to int). -/
def cInt (q : ℚ) : String := q.floor.repr

/-- One trkpt element (src/gpx.c lines 362-395): coordinates as
attributes, then ele and time when set, then the TrackPointExtension
block when any of heart rate, cadence, temperature is set, holding the
set ones in hr, cad, atemp order. -/
def mkTrkpt (a : Activity) (i : Nat) : XNode :=
  .elem "trkpt"
    [("lat", fmtDouble (pointVal a i Latitude)),
     ("lon", fmtDouble (pointVal a i Longitude))]
    ((match pointVal a i Altitude with
      | some q => [XNode.elem "ele" [] [.txt (cFormat "%.2f" q)]]
      | none => []) ++
     (match pointVal a i Timestamp with
      | some q => [XNode.elem "time" [] [.txt (format_timestamp q)]]
      | none => []) ++
     (if (pointVal a i HeartRate).isSome ∨ (pointVal a i Cadence).isSome ∨
          (pointVal a i Temperature).isSome then
        [XNode.elem "extensions" []
          [XNode.elem "gpxtpx:TrackPointExtension" []
            ((match pointVal a i HeartRate with
              | some q => [XNode.elem "gpxtpx:hr" [] [.txt (cInt q)]]
              | none => []) ++
             (match pointVal a i Cadence with
              | some q => [XNode.elem "gpxtpx:cad" [] [.txt (cInt q)]]
              | none => []) ++
             (match pointVal a i Temperature with
              | some q => [XNode.elem "gpxtpx:atemp" [] [.txt (cInt q)]]
              | none => []))]]
      else []))

/-- One lap waypoint (src/gpx.c lines 326-340), for loop index i and
lap point index lap: the coordinates come from the lap start point,
but the time comes from a->data_points[i] with the loop index — the
writer metadata time bug the spec's design notes call out. -/
def mkWpt (a : Activity) (i : Nat) (lap : Nat) : XNode :=
  .elem "wpt"
    [("lat", fmtDouble (pointVal a lap Latitude)),
     ("lon", fmtDouble (pointVal a lap Longitude))]
    [XNode.elem "time" [] [.txt (format_timestamp ((pointVal a i Timestamp).getD 0))],
     XNode.elem "name" [] [.txt ("Lap " ++ Nat.repr i)]]

/-- List of the current open segment, if one exists. -/
def optSegToList : Option (List XNode) → List (List XNode)
  | some l => [l]
  | none => []

/-- Append a point to the current segment.  In C, when no trkseg was
ever created (lap_trksegs mode with an empty laps vector) the trkpt is
attached to an uninitialized pointer — undefined behaviour; the model
drops the point, and no claim exercises that path. -/
def appendCur (cur : Option (List XNode)) (x : XNode) : Option (List XNode) :=
  match cur with
  | some l => some (l ++ [x])
  | none => none

/-- The point loop of to_gpx_xml (src/gpx.c lines 355-396): walking the
point indices, opening a new trkseg at each lap boundary in
lap_trksegs mode (lap = a->laps->data[++lap_count] after each open,
modelled with get?), and appending each point's trkpt to the current
segment. -/
def segGo (a : Activity) (o : GPXOptions) :
    List Nat → Nat → Option Nat → Option (List XNode) → List (List XNode) →
      List (List XNode)
  | [], _, _, cur, done => done ++ optSegToList cur
  | i :: rest, lap_count, lap, cur, done =>
    if (o.add_laps ∧ o.lap_trksegs) ∧ lap_count < a.laps.length ∧ lap = some i then
      segGo a o rest (lap_count + 1) (a.laps.get? (lap_count + 1))
        (some [mkTrkpt a i]) (done ++ optSegToList cur)
    else
      segGo a o rest lap_count lap (appendCur cur (mkTrkpt a i)) done

/-- to_gpx_xml (src/gpx.c lines 289-399): the gpx root with creator,
version and namespace attributes, the metadata time block, the lap
waypoints when add_laps, and the trk holding the name and the track
segments; a single pre-created trkseg holds all points unless add_laps
and lap_trksegs are both set. -/
def to_gpx_xml (a : Activity) (o : GPXOptions) : XNode :=
  .elem "gpx"
    [("creator", "fitparse"), ("version", "1.1"),
     ("xmlns", "http://www.topografix.com/GPX/1/1"),
     ("xmlns:xsi", "http://www.w3.org/2001/XMLSchema-instance"),
     ("xmlns:gpxtpx", "http://www.garmin.com/xmlschemas/TrackPointExtension/v1"),
     ("xmlns:gpxx", "http://www.garmin.com/xmlschemas/GpxExtensions/v3"),
     ("xsi:schemaLocation",
      "http://www.topografix.com/GPX/1/1 http://www.topografix.com/GPX/1/1/gpx.xsd http://www.garmin.com/xmlschemas/GpxExtensions/v3 http://www.garmin.com/xmlschemas/GpxExtensionsv3.xsd http://www.garmin.com/xmlschemas/TrackPointExtension/v1 http://www.garmin.com/xmlschemas/TrackPointExtensionv1.xsd")]
    ([XNode.elem "metadata" [] [XNode.elem "time" [] [.txt (format_timestamp a.start_time)]]] ++
     (if o.add_laps then a.laps.enum.map (fun p => mkWpt a p.1 p.2) else []) ++
     [XNode.elem "trk" []
       ([XNode.elem "name" [] [.txt "Untitled"]] ++
        (segGo a o (List.range a.num_points) 0 (some 0)
          (if o.add_laps ∧ o.lap_trksegs then none else some []) []).map
          (fun s => XNode.elem "trkseg" [] s))])

/-- A byte stream for the GPX writer, holding the documents written. -/
structure GStream where
  docs : List XNode
  ok : Bool

/-- Modelled from the spec: mxmlSaveFile writes the tree to the stream,
returning a negative value on stream failure. -/
def mxmlSaveFile (tree : XNode) (st : GStream) : GStream × Int :=
  if st.ok then ({ st with docs := st.docs ++ [tree] }, 0) else (st, -1)

/-- gpx_write_options (src/gpx.c lines 416-431): fail fast when the
activity never observed a latitude or a longitude (the truthiness test
on a->last is the spec's any-value-ever-seen indicator); otherwise
save the tree, reporting stream failure as 1. -/
def gpx_write_options (st : GStream) (a : Activity) (o : GPXOptions) :
    GStream × Nat :=
  if a.last Latitude = none ∧ a.last Longitude = none then (st, 1)
  else if (mxmlSaveFile (to_gpx_xml a o) st).2 < 0 then
    ((mxmlSaveFile (to_gpx_xml a o) st).1, 1)
  else ((mxmlSaveFile (to_gpx_xml a o) st).1, 0)

/-- Number of elements with a name in a list of nodes. -/
def countNamed (n : String) (l : List XNode) : Nat := l.countP (isNamed n)

/-- Total number of trkpt elements lying in the trksegs of the trks of
the root. -/
def trkptCount (root : XNode) : Nat :=
  (((root.childrenOf.filter (isNamed "trk")).map (fun trk =>
    ((trk.childrenOf.filter (isNamed "trkseg")).map (fun s =>
      countNamed "trkpt" s.childrenOf)).sum)).sum)

lemma mkTrkpt_named (a : Activity) (i : Nat) :
    isNamed "trkpt" (mkTrkpt a i) = true := rfl

lemma segGo_count (a : Activity) (o : GPXOptions) :
    ∀ (idxs : List Nat) (lap_count : Nat) (lap : Option Nat) (l : List XNode)
      (done : List (List XNode)),
      ((segGo a o idxs lap_count lap (some l) done).map
        (fun s => s.countP (isNamed "trkpt"))).sum =
        (done.map (fun s => s.countP (isNamed "trkpt"))).sum +
          l.countP (isNamed "trkpt") + idxs.length := by
  intro idxs
  induction idxs with
  | nil =>
    intro lc lap l done
    simp [segGo, optSegToList]
  | cons i rest ih =>
    intro lc lap l done
    rw [segGo]
    split_ifs with hcond
    · rw [ih]
      simp [optSegToList, List.countP_cons, List.countP_nil, mkTrkpt_named]
      omega
    · rw [show appendCur (some l) (mkTrkpt a i) = some (l ++ [mkTrkpt a i]) from rfl]
      rw [ih]
      simp [List.countP_append, List.countP_cons, List.countP_nil, mkTrkpt_named]
      omega

lemma wpts_named (a : Activity) (o : GPXOptions) (n : String) (hn : n ≠ "wpt") :
    ∀ x ∈ (if o.add_laps then a.laps.enum.map (fun p => mkWpt a p.1 p.2) else []),
      isNamed n x = false := by
  intro x hx
  split at hx
  · obtain ⟨p, hp, hpx⟩ := List.mem_map.mp hx
    subst hpx
    simp [isNamed, mkWpt, XNode.nameOf]
    intro he
    exact hn he.symm
  · exact absurd hx (List.not_mem_nil x)

lemma to_gpx_children (a : Activity) (o : GPXOptions) :
    XNode.childrenOf (to_gpx_xml a o) =
      [XNode.elem "metadata" []
        [XNode.elem "time" [] [XNode.txt (format_timestamp a.start_time)]]] ++
      (if o.add_laps then a.laps.enum.map (fun p => mkWpt a p.1 p.2) else []) ++
      [XNode.elem "trk" []
        ([XNode.elem "name" [] [XNode.txt "Untitled"]] ++
         (segGo a o (List.range a.num_points) 0 (some 0)
           (if o.add_laps ∧ o.lap_trksegs then none else some []) []).map
           (fun s => XNode.elem "trkseg" [] s))] := rfl

lemma c3_trk_count (a : Activity) (o : GPXOptions) :
    countNamed "trk" (to_gpx_xml a o).childrenOf = 1 := by
  rw [show (to_gpx_xml a o).childrenOf = XNode.childrenOf (to_gpx_xml a o) from rfl]
  rw [to_gpx_children]
  unfold countNamed
  rw [List.countP_append, List.countP_append]
  have hB : List.countP (isNamed "trk")
      (if o.add_laps then a.laps.enum.map (fun p => mkWpt a p.1 p.2) else []) = 0 :=
    List.countP_eq_zero.mpr (fun x hx => by
      simp [wpts_named a o "trk" (by decide) x hx])
  rw [hB]
  rfl

lemma segfilter (segs : List (List XNode)) :
    (([XNode.elem "name" [] [XNode.txt "Untitled"]] ++
      segs.map (fun s => XNode.elem "trkseg" [] s)).filter (isNamed "trkseg")) =
      segs.map (fun s => XNode.elem "trkseg" [] s) := by
  rw [List.filter_append]
  rw [show List.filter (isNamed "trkseg")
    [XNode.elem "name" [] [XNode.txt "Untitled"]] = [] from rfl]
  rw [List.filter_eq_self.mpr (by
    intro x hx
    obtain ⟨s, hs, hsx⟩ := List.mem_map.mp hx
    subst hsx
    rfl)]
  rfl

lemma c3_trkpt_count (a : Activity) (o : GPXOptions) :
    trkptCount (to_gpx_xml a o) =
      ((segGo a o (List.range a.num_points) 0 (some 0)
        (if o.add_laps ∧ o.lap_trksegs then none else some []) []).map
        (fun s => s.countP (isNamed "trkpt"))).sum := by
  unfold trkptCount
  rw [to_gpx_children]
  generalize (segGo a o (List.range a.num_points) 0 (some 0)
    (if o.add_laps ∧ o.lap_trksegs then none else some []) []) = segs
  rw [List.filter_append, List.filter_append]
  have hB : List.filter (isNamed "trk")
      (if o.add_laps then a.laps.enum.map (fun p => mkWpt a p.1 p.2) else []) = [] :=
    List.filter_eq_nil_iff.mpr (fun x hx => by
      simp [wpts_named a o "trk" (by decide) x hx])
  rw [hB]
  rw [show List.filter (isNamed "trk")
    [XNode.elem "metadata" []
      [XNode.elem "time" [] [XNode.txt (format_timestamp a.start_time)]]] =
    ([] : List XNode) from rfl]
  rw [show List.filter (isNamed "trk")
      [XNode.elem "trk" []
        ([XNode.elem "name" [] [XNode.txt "Untitled"]] ++
          segs.map (fun s => XNode.elem "trkseg" [] s))] =
      [XNode.elem "trk" []
        ([XNode.elem "name" [] [XNode.txt "Untitled"]] ++
          segs.map (fun s => XNode.elem "trkseg" [] s))] from rfl]
  simp only [List.nil_append, List.append_nil, List.map_cons, List.map_nil,
    List.sum_cons, List.sum_nil, Nat.add_zero]
  rw [show XNode.childrenOf (XNode.elem "trk" []
      ([XNode.elem "name" [] [XNode.txt "Untitled"]] ++
        segs.map (fun s => XNode.elem "trkseg" [] s))) =
      [XNode.elem "name" [] [XNode.txt "Untitled"]] ++
        segs.map (fun s => XNode.elem "trkseg" [] s) from rfl]
  rw [segfilter, List.map_map]
  rfl

/-- C3: gpx_write of a well-formed activity (laps beginning with the
sentinel 1, last consistent with the points) that holds a point with
latitude and longitude set writes, on a working stream, exactly one
document: a gpx root with version 1.1 containing one trk with at
least one trkpt, and returns 0; on an activity that never observed a
latitude or longitude it returns 1 and writes nothing. -/
theorem c3_gpx_write_shape (st : GStream) (a : Activity) (o : GPXOptions)
    (hok : st.ok = true) (hlaps : a.laps.head? = some 1) (hlc : lastConsistent a) :
    ((∃ dp ∈ a.data_points,
        (dp.data Latitude).isSome = true ∧ (dp.data Longitude).isSome = true) →
      (gpx_write_options st a o).2 = 0 ∧
      (gpx_write_options st a o).1.docs = st.docs ++ [to_gpx_xml a o] ∧
      (to_gpx_xml a o).nameOf = "gpx" ∧
      (to_gpx_xml a o).attrOf "version" = some "1.1" ∧
      countNamed "trk" (to_gpx_xml a o).childrenOf = 1 ∧
      1 ≤ trkptCount (to_gpx_xml a o)) ∧
    ((∀ dp ∈ a.data_points, dp.data Latitude = none ∧ dp.data Longitude = none) →
      (gpx_write_options st a o).2 = 1 ∧ (gpx_write_options st a o).1 = st) := by
  constructor
  · rintro ⟨dp, hdp, hdpLat, hdpLon⟩
    have hlat : (a.last Latitude).isSome = true := by
      rw [hlc Latitude]
      exact List.any_eq_true.mpr ⟨dp, hdp, hdpLat⟩
    have hgate : ¬ (a.last Latitude = none ∧ a.last Longitude = none) := by
      rintro ⟨hL, _⟩
      rw [hL] at hlat
      simp at hlat
    have hsave : mxmlSaveFile (to_gpx_xml a o) st =
        ({ st with docs := st.docs ++ [to_gpx_xml a o] }, 0) := by
      unfold mxmlSaveFile
      rw [if_pos hok]
    have hwrite : gpx_write_options st a o =
        ({ st with docs := st.docs ++ [to_gpx_xml a o] }, 0) := by
      unfold gpx_write_options
      rw [if_neg hgate, hsave]
      norm_num
    have hnum1 : 1 ≤ a.num_points := by
      unfold Activity.num_points
      cases hpd : a.data_points with
      | nil => rw [hpd] at hdp; exact absurd hdp (List.not_mem_nil dp)
      | cons x xs => simp
    refine ⟨by rw [hwrite], by rw [hwrite], rfl, rfl, c3_trk_count a o, ?_⟩
    rw [c3_trkpt_count]
    by_cases hmode : o.add_laps ∧ o.lap_trksegs
    · cases hlapsnil : a.laps with
      | nil => rw [hlapsnil] at hlaps; simp at hlaps
      | cons lap0 lapsTail =>
        obtain ⟨m, hm⟩ : ∃ m, a.num_points = m + 1 := ⟨a.num_points - 1, by omega⟩
        rw [if_pos hmode, hm, List.range_succ_eq_map]
        rw [segGo]
        rw [if_pos (show (o.add_laps ∧ o.lap_trksegs) ∧ 0 < a.laps.length ∧
          (some 0 : Option Nat) = some 0 from ⟨hmode, by rw [hlapsnil]; simp, rfl⟩)]
        rw [show ([] : List (List XNode)) ++ optSegToList none =
          ([] : List (List XNode)) from rfl]
        rw [segGo_count]
        simp [List.countP_cons, List.countP_nil, mkTrkpt_named]
    · rw [if_neg hmode]
      rw [segGo_count]
      simp
      omega
  · intro hall
    have hlat : a.last Latitude = none := by
      have h1 := hlc Latitude
      rw [List.any_eq_false.mpr (by
        intro dp hdp
        rw [(hall dp hdp).1]
        simp)] at h1
      cases hv : a.last Latitude with
      | none => rfl
      | some v => rw [hv] at h1; simp at h1
    have hlon : a.last Longitude = none := by
      have h1 := hlc Longitude
      rw [List.any_eq_false.mpr (by
        intro dp hdp
        rw [(hall dp hdp).2]
        simp)] at h1
      cases hv : a.last Longitude with
      | none => rfl
      | some v => rw [hv] at h1; simp at h1
    unfold gpx_write_options
    rw [if_pos ⟨hlat, hlon⟩]
    exact ⟨rfl, rfl⟩

/-- The point of the C3 witness activity. -/
def c3wPt : DataPoint :=
  ⟨fun f => if f = Latitude then some 1 else if f = Longitude then some 2 else none⟩

/-- C3 witness activity with one located point. -/
def c3wAct : Activity :=
  { data_points := [c3wPt]
    laps := [1]
    last := fun f => if f = Latitude then some 1 else if f = Longitude then some 2 else none }

/-- C3 witness activity with no spatial data. -/
def c3wActNone : Activity := { laps := [1] }

/-- C3 witness: both directions at concrete inputs. -/
theorem c3_witness :
    ((gpx_write_options ⟨[], true⟩ c3wAct ⟨false, false⟩).2 = 0 ∧
     (gpx_write_options ⟨[], true⟩ c3wAct ⟨false, false⟩).1.docs =
       (⟨[], true⟩ : GStream).docs ++ [to_gpx_xml c3wAct ⟨false, false⟩] ∧
     (to_gpx_xml c3wAct ⟨false, false⟩).nameOf = "gpx" ∧
     (to_gpx_xml c3wAct ⟨false, false⟩).attrOf "version" = some "1.1" ∧
     countNamed "trk" (to_gpx_xml c3wAct ⟨false, false⟩).childrenOf = 1 ∧
     1 ≤ trkptCount (to_gpx_xml c3wAct ⟨false, false⟩)) ∧
    ((gpx_write_options ⟨[], true⟩ c3wActNone ⟨false, false⟩).2 = 1 ∧
     (gpx_write_options ⟨[], true⟩ c3wActNone ⟨false, false⟩).1 = ⟨[], true⟩) := by
  constructor
  · exact (c3_gpx_write_shape ⟨[], true⟩ c3wAct ⟨false, false⟩ rfl rfl (by decide)).1
      ⟨c3wPt, List.mem_singleton.mpr rfl, rfl, rfl⟩
  · exact (c3_gpx_write_shape ⟨[], true⟩ c3wActNone ⟨false, false⟩ rfl rfl (by decide)).2
      (fun dp hdp => absurd hdp (List.not_mem_nil dp))

/-! ## Claim C6: the lap waypoint time -/

/-- A point with timestamp, latitude and longitude. -/
def mkPt (ts lat lon : ℚ) : DataPoint :=
  ⟨fun f => if f = Timestamp then some ts else if f = Latitude then some lat
    else if f = Longitude then some lon else none⟩

/-- Two-point activity whose single recorded lap starts at point 1. -/
def c6act : Activity :=
  { data_points := [mkPt 10 1 2, mkPt 20 3 4]
    laps := [1]
    last := fun f => if f = Timestamp then some 20 else if f = Latitude then some 3
      else if f = Longitude then some 4 else none
    format := .gpx
    start_time := 10 }

/-- The text of the time element of the first wpt of the document. -/
def firstWptTime (root : XNode) : Option String :=
  match (root.childrenOf.filter (isNamed "wpt")).head? with
  | some w =>
    match (w.childrenOf.filter (isNamed "time")).head? with
    | some t =>
      match t.childrenOf.head? with
      | some (XNode.txt s) => some s
      | _ => none
    | none => none
  | none => none

/-- C6: with add_laps, the writer emits the wpt time from
a->data_points[i] with the loop index i, not from the lap start point:
for the two-point activity whose lap starts at point 1 (timestamp 20),
the emitted wpt time is the timestamp of point 0 (10). -/
theorem c6_wpt_time_uses_loop_index :
    firstWptTime (to_gpx_xml c6act ⟨true, false⟩) = some (format_timestamp 10) ∧
    firstWptTime (to_gpx_xml c6act ⟨true, false⟩) ≠ some (format_timestamp 20) ∧
    c6act.laps = [1] ∧
    pointVal c6act 1 Timestamp = some 20 := by
  refine ⟨rfl, by decide, rfl, rfl⟩

end Fitparse
